import Mathlib

/-!
Verification of the HOA management application (`hoa_app.py`).

The development shallowly embeds the parts of the program that carry real
logic: the email-template renderer `parse_email_template`, the batch email
dispatch loop of `show_email_center`, the delete-confirmation gates, the
maintenance-request UPDATE statement, and the `execute_query` /
`get_properties` error handling.  Strings are modelled as `List Char`, and
Python's `str.replace` (all non-overlapping occurrences, scanned left to
right, replacement text never rescanned) is modelled by `pyReplace`.
-/

namespace HOA

/-! ## Python string primitives -/

/-- The literal left-brace character. -/
def lb : Char := '\x7b'

/-- The literal right-brace character. -/
def rb : Char := '\x7d'

/-- Python `str.isspace` characters relevant to `str.strip()` (ASCII part). -/
def isPySpace (c : Char) : Bool :=
  c == ' ' || c == '\t' || c == '\n' || c == '\r' || c == '\x0b' || c == '\x0c'

/-- Python `s.strip()`: remove leading and trailing whitespace. -/
def pystrip (s : List Char) : List Char :=
  ((s.dropWhile isPySpace).reverse.dropWhile isPySpace).reverse

/-- Python `x or d` for an optional string column: `None` and the empty
string are falsy and yield the default. -/
def pyOrStr (o : Option (List Char)) (d : List Char) : List Char :=
  match o with
  | none => d
  | some s => if s.isEmpty then d else s

/-- Python `x or 0` for an optional numeric column (`None` and `0` both
give `0`). -/
def pyOrInt (o : Option Int) : Int :=
  match o with
  | none => 0
  | some n => n

/-- Python `f"\x7bn\x7d"` for an integer value. -/
def intChars (n : Int) : List Char :=
  (toString n).data

/-- Fuel-driven core of Python `str.replace`: scan left to right, replace
each non-overlapping occurrence of `pat`, never rescanning the replacement
text.  Fuel `s.length` is always enough because every step consumes at
least one character of `s`. -/
def replaceFuel (pat repl : List Char) : Nat → List Char → List Char
  | _, [] => []
  | 0, s => s
  | n + 1, c :: rest =>
    if pat.isPrefixOf (c :: rest) && !pat.isEmpty then
      repl ++ replaceFuel pat repl n ((c :: rest).drop pat.length)
    else
      c :: replaceFuel pat repl n rest

/-- Python `s.replace(pat, repl)` (for the non-empty patterns the program
uses). -/
def pyReplace (s pat repl : List Char) : List Char :=
  replaceFuel pat repl s.length s

/-- Decidable occurrence test: does `pat` occur as a contiguous substring
of `s`?  (`occursIn [] s = true` for every `s`.) -/
def occursIn (pat : List Char) : List Char → Bool
  | [] => pat.isEmpty
  | c :: rest => pat.isPrefixOf (c :: rest) || occursIn pat rest

/-! ## Template placeholder vocabulary (source lines 111-136) -/

/-- Placeholder token built from a bare variable name. -/
def mkTok (name : List Char) : List Char :=
  lb :: lb :: (name ++ [rb, rb])

def patPropertyAddress : List Char := "\x7b\x7bproperty_address\x7d\x7d".data

def patResidentName : List Char := "\x7b\x7bresident_name\x7d\x7d".data

def patMonthlyFee : List Char := "\x7b\x7bmonthly_fee\x7d\x7d".data

def patCurrentBalance : List Char := "\x7b\x7bcurrent_balance\x7d\x7d".data

def patDueDate : List Char := "\x7b\x7bdue_date\x7d\x7d".data

def patRequestTitle : List Char := "\x7b\x7brequest_title\x7d\x7d".data

def patStatus : List Char := "\x7b\x7bstatus\x7d\x7d".data

def patNotes : List Char := "\x7b\x7bnotes\x7d\x7d".data

def namePropertyAddress : List Char := "property_address".data

def nameResidentName : List Char := "resident_name".data

def nameMonthlyFee : List Char := "monthly_fee".data

def nameCurrentBalance : List Char := "current_balance".data

def nameDueDate : List Char := "due_date".data

def nameRequestTitle : List Char := "request_title".data

def nameStatus : List Char := "status".data

def nameNotes : List Char := "notes".data

/-- The eight placeholder names of the fixed vocabulary. -/
def vocabNames : List (List Char) :=
  [namePropertyAddress, nameResidentName, nameMonthlyFee, nameCurrentBalance,
   nameDueDate, nameRequestTitle, nameStatus, nameNotes]

/-- The eight placeholder tokens of the fixed vocabulary. -/
def vocabPatterns : List (List Char) :=
  [patPropertyAddress, patResidentName, patMonthlyFee, patCurrentBalance,
   patDueDate, patRequestTitle, patStatus, patNotes]

/-- The five placeholder tokens that receive defaults (source lines
132-136). -/
def defaultablePatterns : List (List Char) :=
  [patCurrentBalance, patDueDate, patRequestTitle, patStatus, patNotes]

/-- True when none of the eight vocabulary tokens occurs in `s`. -/
def noVocabOccurrence (s : List Char) : Bool :=
  vocabPatterns.all (fun pat => !(occursIn pat s))

/-- True when none of the five defaultable tokens occurs in `s`. -/
def noDefaultableOccurrence (s : List Char) : Bool :=
  defaultablePatterns.all (fun pat => !(occursIn pat s))

/-! ## Data rows and contexts

`Row` mirrors the rows produced by `get_properties` (source lines 53-68):
positions `[0]` id, `[1]` address, `[2]` unit_number, `[3]`
hoa_fees_monthly, `[4]` primary_contact, `[5]` email.  `NULL`-able
columns are `Option`s. -/

structure Row where
  id : Nat
  address : List Char
  unit_number : Option (List Char)
  hoa_fees_monthly : Option Int
  primary_contact : Option (List Char)
  email : Option (List Char)
deriving DecidableEq, Repr

/-- Maintenance context dict: `maintenance_data.get(key, '')` yields the
stored string or the empty default (source lines 124-126).  The fields
hold the string form of the stored values; a missing key is `none`. -/
structure MaintData where
  title : Option (List Char)
  status : Option (List Char)
  notes : Option (List Char)
deriving DecidableEq, Repr

/-- Financial context dict: `financial_data.get('balance', 0)` and
`financial_data.get('due_date', 'TBD')` (source lines 117-118).  The
fields hold the Python string form of the stored values; a missing key is
`none`. -/
structure FinData where
  balance : Option (List Char)
  due_date : Option (List Char)
deriving DecidableEq, Repr

def spaceChars : List Char := " ".data

def residentDefault : List Char := "Resident".data

def zeroChars : List Char := "0".data

def tbdChars : List Char := "TBD".data

def zeroZeroChars : List Char := "0.00".data

def endOfMonthChars : List Char := "End of Month".data

/-- The display label of a property row, `f"\x7brow[1]\x7d \x7brow[2] or ''\x7d".strip()`.
The same expression computes `property_address` in `parse_email_template`
(source line 107) and the recipient labels of the email center (source
lines 585, 610). -/
def displayOf (r : Row) : List Char :=
  pystrip (r.address ++ spaceChars ++ pyOrStr r.unit_number [])

/-! ## parse_email_template (source lines 98-138) -/

/-- Property-variable pass (source lines 106-113). -/
def applyProperty (row : Row) (s : List Char) : List Char :=
  let property_address := displayOf row
  let resident_name := pyOrStr row.primary_contact residentDefault
  let monthly_fee := pyOrInt row.hoa_fees_monthly
  pyReplace (pyReplace (pyReplace s patPropertyAddress property_address)
      patResidentName resident_name)
    patMonthlyFee (intChars monthly_fee)

/-- Financial-variable pass (source lines 116-120). -/
def applyFinancial (f : FinData) (s : List Char) : List Char :=
  let current_balance := f.balance.getD zeroChars
  let due_date := f.due_date.getD tbdChars
  pyReplace (pyReplace s patCurrentBalance current_balance) patDueDate due_date

/-- Maintenance-variable pass (source lines 123-129). -/
def applyMaintenance (m : MaintData) (s : List Char) : List Char :=
  let request_title := m.title.getD []
  let status := m.status.getD []
  let notes := m.notes.getD []
  pyReplace (pyReplace (pyReplace s patRequestTitle request_title)
      patStatus status)
    patNotes notes

/-- Default pass, applied unconditionally (source lines 131-136). -/
def applyDefaults (s : List Char) : List Char :=
  pyReplace (pyReplace (pyReplace (pyReplace (pyReplace s
            patCurrentBalance zeroZeroChars)
          patDueDate endOfMonthChars)
        patRequestTitle [])
      patStatus [])
    patNotes []

/-- The template renderer `parse_email_template` (source lines 98-138).
Argument order follows the Python signature; execution order is property,
financial, maintenance, then defaults, exactly as in the source. -/
def parse_email_template (template_text : List Char) (property_row : Option Row)
    (maintenance_data : Option MaintData) (financial_data : Option FinData) :
    List Char :=
  if template_text.isEmpty then template_text
  else
    let s1 := match property_row with
      | none => template_text
      | some row => applyProperty row template_text
    let s2 := match financial_data with
      | none => s1
      | some f => applyFinancial f s1
    let s3 := match maintenance_data with
      | none => s2
      | some m => applyMaintenance m s2
    applyDefaults s3

/-! ## Batch email dispatch (source lines 594-643)

The send loop iterates the selected display labels in order.  For each
label it scans `properties_data` for the first row with a matching display
label (`break` after the match).  A matched row with an email address gets
a rendered subject/body and a `send_email` attempt; a matched row without
one is counted as a failure; a label matching no row falls through the
inner loop without touching either counter. -/

/-- Outcome of processing one selected recipient label. -/
inductive Event where
  | sentOk (addr : List Char)
  | sendFailed (addr : List Char)
  | noEmail
  | noMatch
deriving DecidableEq, Repr

/-- The external mail transport: `send_email(to, subject, body)` returns
success or failure (source lines 141-160 catch every exception and return
a Bool). -/
def SendFn : Type :=
  List Char → List Char → List Char → Bool

/-- The inner `for row in properties_data: ... break` loop: first row whose
display label equals the selected label (source lines 609-628). -/
def findMatchingRow (rows : List Row) (disp : List Char) : Option Row :=
  rows.find? (fun r => decide (displayOf r = disp))

/-- One iteration of the outer send loop (source lines 605-628). -/
def processRecipient (send : SendFn) (rows : List Row) (subject body : List Char)
    (disp : List Char) : Event :=
  match findMatchingRow rows disp with
  | none => Event.noMatch
  | some row =>
    match row.email with
    | some e =>
      if !e.isEmpty && !(pystrip e).isEmpty then
        if send e (parse_email_template subject (some row) none none)
            (parse_email_template body (some row) none none) then
          Event.sentOk e
        else Event.sendFailed e
      else Event.noEmail
    | none => Event.noEmail

/-- The whole dispatch over the selected labels, in selection order. -/
def dispatchEmails (send : SendFn) (rows : List Row) (subject body : List Char)
    (selected : List (List Char)) : List Event :=
  selected.map (processRecipient send rows subject body)

/-- Final value of `sent_count` (source lines 598, 622). -/
def sentCount (evs : List Event) : Nat :=
  evs.countP (fun e => match e with | Event.sentOk _ => true | _ => false)

/-- Final value of `failed_count` (source lines 599, 624, 627). -/
def failedCount (evs : List Event) : Nat :=
  evs.countP (fun e =>
    match e with
    | Event.sendFailed _ => true
    | Event.noEmail => true
    | _ => false)

/-! ## Delete-confirmation gates

Each delete tab renders the mutating button with
`disabled=(confirm_text != phrase)`, so the DELETE statement runs exactly
when the button is clicked while the confirmation input equals the
phrase.  Properties: source lines 379-384; maintenance requests: source
lines 515-520; email templates: source lines 848-859. -/

def deletePropertyPrefix : List Char := "DELETE PROPERTY ".data

def deleteRequestPrefix : List Char := "DELETE ".data

def deleteTemplatePrefix : List Char := "DELETE TEMPLATE ".data

/-- Confirmation phrase for deleting a property (source line 379). -/
def propertyDeletePhrase (pid : Nat) : List Char :=
  deletePropertyPrefix ++ (toString pid).data

/-- Confirmation phrase for deleting a maintenance request (source line
515): note the phrase carries no entity word. -/
def maintenanceDeletePhrase (rid : Nat) : List Char :=
  deleteRequestPrefix ++ (toString rid).data

/-- Confirmation phrase for deleting an email template (source line 849). -/
def templateDeletePhrase (tid : Nat) : List Char :=
  deleteTemplatePrefix ++ (toString tid).data

/-- Whether the property DELETE statement runs (source lines 381-384). -/
def propertyDeleteRuns (pid : Nat) (confirm : List Char) (clicked : Bool) : Bool :=
  clicked && decide (confirm = propertyDeletePhrase pid)

/-- Whether the maintenance-request DELETE statement runs (source lines
517-520). -/
def maintenanceDeleteRuns (rid : Nat) (confirm : List Char) (clicked : Bool) : Bool :=
  clicked && decide (confirm = maintenanceDeletePhrase rid)

/-- Whether the email-template DELETE statement runs (source lines
856-859). -/
def templateDeleteRuns (tid : Nat) (confirm : List Char) (clicked : Bool) : Bool :=
  clicked && decide (confirm = templateDeletePhrase tid)

/-! ## Maintenance-request update (source lines 485-500)

The edit form's UPDATE statement sets priority, title, description,
assigned_to, estimated_cost, actual_cost, status, notes and
expected_completion, and nothing else; in particular it never touches
`completed_date` (which the reports page reads at source line 889). -/

structure MaintenanceRequest where
  id : Nat
  property_id : Nat
  request_type : List Char
  priority : List Char
  title : List Char
  description : List Char
  reported_by : List Char
  assigned_to : List Char
  estimated_cost : Int
  actual_cost : Int
  status : List Char
  notes : List Char
  expected_completion : Option Nat
  completed_date : Option Nat
deriving DecidableEq, Repr

/-- The UPDATE of the edit-request form (source lines 486-496), applied to
the stored record. -/
def updateMaintenanceRequest (r : MaintenanceRequest)
    (new_priority new_title new_description new_assigned_to : List Char)
    (new_estimated new_actual : Int) (new_status new_notes : List Char)
    (new_expected : Option Nat) : MaintenanceRequest :=
  { r with
    priority := new_priority
    title := new_title
    description := new_description
    assigned_to := new_assigned_to
    estimated_cost := new_estimated
    actual_cost := new_actual
    status := new_status
    notes := new_notes
    expected_completion := new_expected }

/-! ## Query layer (source lines 24-68)

The data store is an oracle mapping a SQL text and parameters to either an
error or a result (fetched rows plus a rowcount).  `execute_query` catches
the error, reports it via `st.error`, and returns `None`; on success it
returns the fetched rows (fetch) or the rowcount (no fetch).  The second
component of the result collects the reported error messages. -/

inductive Cell where
  | null
  | int (n : Int)
  | str (s : List Char)
  | bool (b : Bool)
deriving DecidableEq, Repr

structure DBResult where
  rows : List (List Cell)
  rowcount : Int
deriving DecidableEq, Repr

/-- The external relational store. -/
def DB : Type :=
  List Char → Option (List Cell) → Except (List Char) DBResult

inductive QueryOut where
  | rows (rs : List (List Cell))
  | count (n : Int)
deriving DecidableEq, Repr

def dbErrorPrefix : List Char := "Database error: ".data

/-- The helper `execute_query` (source lines 24-51). -/
def execute_query (db : DB) (query : List Char) (params : Option (List Cell))
    (fetch : Bool) : Option QueryOut × List (List Char) :=
  match db query params with
  | Except.error e => (none, [dbErrorPrefix ++ e])
  | Except.ok res =>
    if fetch then (some (QueryOut.rows res.rows), [])
    else (some (QueryOut.count res.rowcount), [])

/-- The SQL text of `get_properties` (source lines 55-62). -/
def propertiesQuery : List Char :=
  "SELECT p.id, p.address, p.unit_number, p.hoa_fees_monthly, r.first_name || ' ' || r.last_name as primary_contact, r.email FROM properties p LEFT JOIN residents r ON p.id = r.property_id AND r.is_primary_contact = true ORDER BY p.address, p.unit_number".data

/-- The accessor `get_properties` (source lines 53-68): on a falsy result
(`None` from an error, or an empty row list) it returns `[]`; otherwise it
appends a `None` side column to every row. -/
def get_properties (db : DB) : List (List Cell) :=
  match (execute_query db propertiesQuery none true).1 with
  | some (QueryOut.rows rs) =>
    if rs.isEmpty then [] else rs.map (fun row => row ++ [Cell.null])
  | _ => []

/-! ## Lemmas about occurrence and replacement -/

/-- Bridge between the executable test `List.isPrefixOf` and `<+:`. -/
lemma isPre_iff (l₁ l₂ : List Char) : l₁.isPrefixOf l₂ = true ↔ l₁ <+: l₂ :=
  List.isPrefixOf_iff_prefix

/-- Occurrence as existence of a position. -/
lemma occursIn_iff (pat s : List Char) :
    occursIn pat s = true ↔ ∃ k, pat <+: s.drop k := by
  induction s with
  | nil =>
    simp [occursIn, List.isEmpty_iff, List.prefix_nil]
  | cons c rest ih =>
    simp only [occursIn, Bool.or_eq_true, ih]
    constructor
    · rintro (h | ⟨k, hk⟩)
      · exact ⟨0, by simpa using (isPre_iff _ _).mp h⟩
      · exact ⟨k + 1, by simpa using hk⟩
    · rintro ⟨k, hk⟩
      cases k with
      | zero => exact Or.inl ((isPre_iff _ _).mpr (by simpa using hk))
      | succ k => exact Or.inr ⟨k, by simpa using hk⟩

/-- Occurrence is stable under prepending text. -/
lemma occursIn_append_right (pat u t : List Char) (h : occursIn pat t = true) :
    occursIn pat (u ++ t) = true := by
  induction u with
  | nil => simpa using h
  | cons c u ih => simp [occursIn, ih]

/-- A pattern that starts the string occurs in it. -/
lemma occursIn_of_pre (pat s : List Char) (h : pat <+: s) :
    occursIn pat s = true := by
  cases s with
  | nil =>
    have hp := (List.prefix_nil).mp h
    subst hp
    rfl
  | cons c rest => simp [occursIn, (isPre_iff _ _).mpr h]

/-- Replacement on the empty string. -/
lemma replaceFuel_nil (pat repl : List Char) (n : Nat) :
    replaceFuel pat repl n [] = [] := by
  cases n <;> rfl

/-- A replace pass is the identity when the pattern does not occur. -/
lemma replaceFuel_of_not_occursIn (pat repl : List Char) (n : Nat) :
    ∀ (s : List Char), occursIn pat s = false → replaceFuel pat repl n s = s := by
  induction n with
  | zero => intro s _; cases s <;> rfl
  | succ n ih =>
    intro s h
    cases s with
    | nil => rfl
    | cons c rest =>
      have h0 : pat.isPrefixOf (c :: rest) = false := by
        cases hp : pat.isPrefixOf (c :: rest)
        · rfl
        · rw [occursIn, hp] at h
          simp at h
      have h1 : occursIn pat rest = false := by
        rw [occursIn, h0] at h
        simpa using h
      simp [replaceFuel, h0, ih rest h1]

/-- Python replace is the identity when the pattern does not occur. -/
lemma pyReplace_of_not_occursIn (s pat repl : List Char)
    (h : occursIn pat s = false) : pyReplace s pat repl = s :=
  replaceFuel_of_not_occursIn pat repl s.length s h

/-- Replacing the whole string when it equals the (non-empty) pattern. -/
lemma pyReplace_self (pat repl : List Char) (h : pat ≠ []) :
    pyReplace pat pat repl = repl := by
  cases pat with
  | nil => cases h rfl
  | cons c cs =>
    have hpre : (c :: cs).isPrefixOf (c :: cs) = true :=
      (isPre_iff _ _).mpr List.prefix_rfl
    simp [pyReplace, replaceFuel, hpre, List.drop_length, replaceFuel_nil]

/-- If no replacement is triggered at the first `w.length` positions, a
replace pass keeps the leading `w` intact. -/
lemma replaceFuel_keeps_pre (pat repl : List Char) :
    ∀ (w : List Char) (n : Nat) (s : List Char), w <+: s →
      (∀ k, k < w.length → (pat.isPrefixOf (s.drop k) && !pat.isEmpty) = false) →
      w <+: replaceFuel pat repl n s := by
  intro w
  induction w with
  | nil =>
    intro n s _ _
    exact List.nil_prefix
  | cons a w ih =>
    intro n s hpre hcond
    cases s with
    | nil =>
      exact absurd ((List.prefix_nil).mp hpre) (by simp)
    | cons b rest =>
      obtain ⟨hab, hw⟩ := (List.cons_prefix_cons).mp hpre
      cases n with
      | zero => simpa [replaceFuel] using hpre
      | succ n =>
        have h0 := hcond 0 (by simp)
        rw [List.drop_zero] at h0
        rw [replaceFuel, if_neg (by simp [h0])]
        refine (List.cons_prefix_cons).mpr ⟨hab, ih n rest hw ?_⟩
        intro k hk
        have hk1 := hcond (k + 1) (by simpa using Nat.succ_lt_succ hk)
        simpa using hk1

/-- Two strings that can never overlap as substrings: no occurrence of
`tok` can start strictly inside an occurrence of `pat` or share its start
(first component), and no occurrence of `pat` can start strictly inside an
occurrence of `tok` (second component). -/
def NoOverlap (pat tok : List Char) : Prop :=
  (∀ d v, d < pat.length → pat <+: v → ¬ tok <+: v.drop d) ∧
  (∀ d v, 0 < d → d < tok.length → tok <+: v → ¬ pat <+: v.drop d)

/-- A replace pass preserves every occurrence of a token that can never
overlap the pattern. -/
lemma replaceFuel_keeps_token (pat repl tok : List Char) (hno : NoOverlap pat tok)
    (n : Nat) :
    ∀ (s : List Char), occursIn tok s = true →
      occursIn tok (replaceFuel pat repl n s) = true := by
  induction n with
  | zero =>
    intro s h
    cases s with
    | nil => simpa using h
    | cons c rest => simpa [replaceFuel] using h
  | succ n ih =>
    intro s h
    cases s with
    | nil => simpa using h
    | cons c rest =>
      obtain ⟨k, hk⟩ := (occursIn_iff tok (c :: rest)).mp h
      by_cases hcond : (pat.isPrefixOf (c :: rest) && !pat.isEmpty) = true
      · have hpat : pat <+: (c :: rest) := by
          rcases Bool.and_eq_true_iff.mp hcond with ⟨hp, _⟩
          exact (isPre_iff _ _).mp hp
        have hklen : pat.length ≤ k := by
          by_contra hlt
          push_neg at hlt
          exact hno.1 k (c :: rest) hlt hpat hk
        have hk' : tok <+: ((c :: rest).drop pat.length).drop (k - pat.length) := by
          rw [List.drop_drop]
          rwa [Nat.add_sub_cancel' hklen]
        have hrec := ih ((c :: rest).drop pat.length)
          ((occursIn_iff _ _).mpr ⟨k - pat.length, hk'⟩)
        rw [replaceFuel, if_pos hcond]
        exact occursIn_append_right tok repl _ hrec
      · have hcf : (pat.isPrefixOf (c :: rest) && !pat.isEmpty) = false :=
          Bool.not_eq_true _ ▸ Bool.of_not_eq_true hcond
        cases k with
        | zero =>
          rw [List.drop_zero] at hk
          have hall : ∀ j, j < tok.length →
              (pat.isPrefixOf ((c :: rest).drop j) && !pat.isEmpty) = false := by
            intro j hj
            cases j with
            | zero => simpa using hcf
            | succ j =>
              by_contra hcj
              rw [Bool.not_eq_false, Bool.and_eq_true_iff] at hcj
              exact hno.2 (j + 1) (c :: rest) (Nat.succ_pos j) hj hk
                ((isPre_iff _ _).mp hcj.1)
          exact occursIn_of_pre _ _
            (replaceFuel_keeps_pre pat repl tok (n + 1) (c :: rest) hk hall)
        | succ k =>
          have hrec := ih rest ((occursIn_iff _ _).mpr ⟨k, by simpa using hk⟩)
          rw [replaceFuel, if_neg (by simp [hcf])]
          simp [occursIn, hrec]

/-- Python replace preserves every occurrence of a non-overlapping token. -/
lemma pyReplace_keeps_token (s pat repl tok : List Char) (hno : NoOverlap pat tok)
    (h : occursIn tok s = true) :
    occursIn tok (pyReplace s pat repl) = true :=
  replaceFuel_keeps_token pat repl tok hno s.length s h

/-! ## Overlap-freeness of placeholder tokens

A placeholder token `mkTok x` has left braces only at positions 0 and 1
and right braces only at its last two positions, provided the name `x` is
brace-free.  From this, two distinct tokens can never overlap as
substrings of any string. -/

/-- The name of a placeholder contains no brace characters. -/
def braceFree (l : List Char) : Bool :=
  l.all (fun c => !(c == lb) && !(c == rb))

/-- Inside `l ++ [rb, rb]` (with `l` brace-free) no position holds a left
brace, so nothing starting with `lb` can start at any such position. -/
lemma not_lb_inside (w tail : List Char) :
    ∀ (l : List Char), braceFree l = true → ∀ j, j < l.length + 2 →
      ¬ ((lb :: tail) <+: ((l ++ [rb, rb]).drop j ++ w)) := by
  intro l
  induction l with
  | nil =>
    intro _ j hj h
    have hj' : j < 2 := by simpa using hj
    interval_cases j
    · have hhead := ((List.cons_prefix_cons).mp (by simpa using h)).1
      exact absurd hhead (by decide)
    · have hhead := ((List.cons_prefix_cons).mp (by simpa using h)).1
      exact absurd hhead (by decide)
  | cons a l ih =>
    intro hbf j hj h
    rw [braceFree, List.all_cons, Bool.and_eq_true] at hbf
    have hane : ¬ (a = lb) := by
      have hb := hbf.1
      simp only [Bool.and_eq_true, Bool.not_eq_true', beq_eq_false_iff_ne, ne_eq] at hb
      exact hb.1
    have hbf' : braceFree l = true := hbf.2
    cases j with
    | zero =>
      have hhead := ((List.cons_prefix_cons).mp (by simpa using h)).1
      exact hane hhead.symm
    | succ j =>
      exact ih hbf' j (by simp at hj; omega) (by simpa using h)

/-- Two brace-free names followed by the closing braces determine each
other: a prefix relation between `p ++ "\x7d\x7d"` and `q ++ "\x7d\x7d"` forces
`p = q`. -/
lemma affix_core : ∀ (p q : List Char), braceFree p = true → braceFree q = true →
    (p ++ [rb, rb]) <+: (q ++ [rb, rb]) → p = q := by
  intro p
  induction p with
  | nil =>
    intro q _ hq h
    cases q with
    | nil => rfl
    | cons c q =>
      have hhead := ((List.cons_prefix_cons).mp (by simpa using h)).1
      rw [braceFree, List.all_cons, Bool.and_eq_true] at hq
      have hcne : ¬ (c = rb) := by
        have hb := hq.1
        simp only [Bool.and_eq_true, Bool.not_eq_true', beq_eq_false_iff_ne, ne_eq] at hb
        exact hb.2
      exact absurd hhead.symm hcne
  | cons a p ih =>
    intro q hp hq h
    cases q with
    | nil =>
      have hhead := ((List.cons_prefix_cons).mp (by simpa using h)).1
      rw [braceFree, List.all_cons, Bool.and_eq_true] at hp
      have hane : ¬ (a = rb) := by
        have hb := hp.1
        simp only [Bool.and_eq_true, Bool.not_eq_true', beq_eq_false_iff_ne, ne_eq] at hb
        exact hb.2
      exact absurd hhead hane
    | cons c q =>
      obtain ⟨hac, h'⟩ := (List.cons_prefix_cons).mp (by simpa using h)
      rw [braceFree, List.all_cons, Bool.and_eq_true] at hp hq
      rw [hac, ih q hp.2 hq.2 h']

/-- Distinct brace-free names give placeholder tokens that can never
overlap as substrings. -/
lemma brace_no_overlap (p name : List Char) (hp : braceFree p = true)
    (hn : braceFree name = true) (hne : name ≠ p) :
    NoOverlap (mkTok p) (mkTok name) := by
  constructor
  · intro d v hd hpat htok
    obtain ⟨w, rfl⟩ := hpat
    cases d with
    | zero =>
      rw [List.drop_zero] at htok
      have hq := List.prefix_or_prefix_of_prefix htok (List.prefix_append _ w)
      rcases hq with hq | hq
      · simp only [mkTok, List.cons_prefix_cons, true_and] at hq
        exact hne (affix_core name p hn hp hq)
      · simp only [mkTok, List.cons_prefix_cons, true_and] at hq
        exact hne (affix_core p name hp hn hq).symm
    | succ d' =>
      cases d' with
      | zero =>
        have htok' : lb :: (name ++ [rb, rb]) <+: (p ++ [rb, rb]) ++ w := by
          have h2 := (by simpa [mkTok] using htok :
            lb :: (lb :: (name ++ [rb, rb])) <+: lb :: ((p ++ [rb, rb]) ++ w))
          exact ((List.cons_prefix_cons).mp h2).2
        exact not_lb_inside w (name ++ [rb, rb]) p hp 0 (by omega)
          (by simpa using htok')
      | succ j =>
        have hj : j < p.length + 2 := by
          simp [mkTok] at hd
          omega
        have htok' : (lb :: (lb :: (name ++ [rb, rb]))) <+:
            ((p ++ [rb, rb]).drop j ++ w) := by
          have h2 := (by simpa [mkTok] using htok :
            lb :: (lb :: (name ++ [rb, rb])) <+: ((p ++ [rb, rb]) ++ w).drop j)
          rwa [List.drop_append_eq_append_drop, Nat.sub_eq_zero_of_le (by simp; omega),
            List.drop_zero] at h2
        exact not_lb_inside w (lb :: (name ++ [rb, rb])) p hp j hj htok'
  · intro d v h0 hd htok hpat
    obtain ⟨w, rfl⟩ := htok
    cases d with
    | zero => exact absurd h0 (lt_irrefl 0)
    | succ d' =>
      cases d' with
      | zero =>
        have hpat' : lb :: (p ++ [rb, rb]) <+: (name ++ [rb, rb]) ++ w := by
          have h2 := (by simpa [mkTok] using hpat :
            lb :: (lb :: (p ++ [rb, rb])) <+: lb :: ((name ++ [rb, rb]) ++ w))
          exact ((List.cons_prefix_cons).mp h2).2
        exact not_lb_inside w (p ++ [rb, rb]) name hn 0 (by omega)
          (by simpa using hpat')
      | succ j =>
        have hj : j < name.length + 2 := by
          simp [mkTok] at hd
          omega
        have hpat' : (lb :: (lb :: (p ++ [rb, rb]))) <+:
            ((name ++ [rb, rb]).drop j ++ w) := by
          have h2 := (by simpa [mkTok] using hpat :
            lb :: (lb :: (p ++ [rb, rb])) <+: ((name ++ [rb, rb]) ++ w).drop j)
          rwa [List.drop_append_eq_append_drop, Nat.sub_eq_zero_of_le (by simp; omega),
            List.drop_zero] at h2
        exact not_lb_inside w (lb :: (p ++ [rb, rb])) name hn j hj hpat'

/-! ## Per-pattern bridges and phase lemmas -/

lemma patPropertyAddress_eq : patPropertyAddress = mkTok namePropertyAddress := by decide

lemma patResidentName_eq : patResidentName = mkTok nameResidentName := by decide

lemma patMonthlyFee_eq : patMonthlyFee = mkTok nameMonthlyFee := by decide

lemma patCurrentBalance_eq : patCurrentBalance = mkTok nameCurrentBalance := by decide

lemma patDueDate_eq : patDueDate = mkTok nameDueDate := by decide

lemma patRequestTitle_eq : patRequestTitle = mkTok nameRequestTitle := by decide

lemma patStatus_eq : patStatus = mkTok nameStatus := by decide

lemma patNotes_eq : patNotes = mkTok nameNotes := by decide

/-- One replace pass with a vocabulary token keeps every occurrence of a
token whose brace-free name differs from the vocabulary word. -/
lemma keeps_token_of_word (pword name s repl : List Char)
    (hpw : braceFree pword = true) (hn : braceFree name = true) (hne : name ≠ pword)
    (h : occursIn (mkTok name) s = true) :
    occursIn (mkTok name) (pyReplace s (mkTok pword) repl) = true :=
  pyReplace_keeps_token s (mkTok pword) repl (mkTok name)
    (brace_no_overlap pword name hpw hn hne) h

lemma applyProperty_keeps_token (row : Row) (name : List Char)
    (hn : braceFree name = true) (hmem : name ∉ vocabNames) (s : List Char)
    (h : occursIn (mkTok name) s = true) :
    occursIn (mkTok name) (applyProperty row s) = true := by
  simp only [vocabNames, List.mem_cons, List.not_mem_nil, or_false, not_or] at hmem
  obtain ⟨h1, h2, h3, _⟩ := hmem
  unfold applyProperty
  rw [patPropertyAddress_eq, patResidentName_eq, patMonthlyFee_eq]
  exact keeps_token_of_word _ _ _ _ (by decide) hn h3
    (keeps_token_of_word _ _ _ _ (by decide) hn h2
      (keeps_token_of_word _ _ _ _ (by decide) hn h1 h))

lemma applyFinancial_keeps_token (f : FinData) (name : List Char)
    (hn : braceFree name = true) (hmem : name ∉ vocabNames) (s : List Char)
    (h : occursIn (mkTok name) s = true) :
    occursIn (mkTok name) (applyFinancial f s) = true := by
  simp only [vocabNames, List.mem_cons, List.not_mem_nil, or_false, not_or] at hmem
  obtain ⟨_, _, _, h4, h5, _⟩ := hmem
  unfold applyFinancial
  rw [patCurrentBalance_eq, patDueDate_eq]
  exact keeps_token_of_word _ _ _ _ (by decide) hn h5
    (keeps_token_of_word _ _ _ _ (by decide) hn h4 h)

lemma applyMaintenance_keeps_token (m : MaintData) (name : List Char)
    (hn : braceFree name = true) (hmem : name ∉ vocabNames) (s : List Char)
    (h : occursIn (mkTok name) s = true) :
    occursIn (mkTok name) (applyMaintenance m s) = true := by
  simp only [vocabNames, List.mem_cons, List.not_mem_nil, or_false, not_or] at hmem
  obtain ⟨_, _, _, _, _, h6, h7, h8⟩ := hmem
  unfold applyMaintenance
  rw [patRequestTitle_eq, patStatus_eq, patNotes_eq]
  exact keeps_token_of_word _ _ _ _ (by decide) hn h8
    (keeps_token_of_word _ _ _ _ (by decide) hn h7
      (keeps_token_of_word _ _ _ _ (by decide) hn h6 h))

lemma applyDefaults_keeps_token (name : List Char)
    (hn : braceFree name = true) (hmem : name ∉ vocabNames) (s : List Char)
    (h : occursIn (mkTok name) s = true) :
    occursIn (mkTok name) (applyDefaults s) = true := by
  simp only [vocabNames, List.mem_cons, List.not_mem_nil, or_false, not_or] at hmem
  obtain ⟨_, _, _, h4, h5, h6, h7, h8⟩ := hmem
  unfold applyDefaults
  rw [patCurrentBalance_eq, patDueDate_eq, patRequestTitle_eq, patStatus_eq,
    patNotes_eq]
  exact keeps_token_of_word _ _ _ _ (by decide) hn h8
    (keeps_token_of_word _ _ _ _ (by decide) hn h7
      (keeps_token_of_word _ _ _ _ (by decide) hn h6
        (keeps_token_of_word _ _ _ _ (by decide) hn h5
          (keeps_token_of_word _ _ _ _ (by decide) hn h4 h))))

/-- Extract a single pattern-absence fact from `noVocabOccurrence`. -/
lemma occursIn_false_of_noVocab (s pat : List Char) (hmem : pat ∈ vocabPatterns)
    (h : noVocabOccurrence s = true) : occursIn pat s = false := by
  rw [noVocabOccurrence, List.all_eq_true] at h
  simpa using h pat hmem

/-- Extract a single pattern-absence fact from `noDefaultableOccurrence`. -/
lemma occursIn_false_of_noDefaultable (s pat : List Char)
    (hmem : pat ∈ defaultablePatterns)
    (h : noDefaultableOccurrence s = true) : occursIn pat s = false := by
  rw [noDefaultableOccurrence, List.all_eq_true] at h
  simpa using h pat hmem

lemma applyProperty_noop (row : Row) (s : List Char)
    (hA : occursIn patPropertyAddress s = false)
    (hR : occursIn patResidentName s = false)
    (hM : occursIn patMonthlyFee s = false) :
    applyProperty row s = s := by
  simp only [applyProperty]
  rw [pyReplace_of_not_occursIn _ _ _ hA, pyReplace_of_not_occursIn _ _ _ hR,
    pyReplace_of_not_occursIn _ _ _ hM]

lemma applyFinancial_noop (f : FinData) (s : List Char)
    (hB : occursIn patCurrentBalance s = false)
    (hD : occursIn patDueDate s = false) :
    applyFinancial f s = s := by
  simp only [applyFinancial]
  rw [pyReplace_of_not_occursIn _ _ _ hB, pyReplace_of_not_occursIn _ _ _ hD]

lemma applyMaintenance_noop (m : MaintData) (s : List Char)
    (hT : occursIn patRequestTitle s = false)
    (hS : occursIn patStatus s = false)
    (hN : occursIn patNotes s = false) :
    applyMaintenance m s = s := by
  simp only [applyMaintenance]
  rw [pyReplace_of_not_occursIn _ _ _ hT, pyReplace_of_not_occursIn _ _ _ hS,
    pyReplace_of_not_occursIn _ _ _ hN]

lemma applyDefaults_noop (s : List Char)
    (hB : occursIn patCurrentBalance s = false)
    (hD : occursIn patDueDate s = false)
    (hT : occursIn patRequestTitle s = false)
    (hS : occursIn patStatus s = false)
    (hN : occursIn patNotes s = false) :
    applyDefaults s = s := by
  simp only [applyDefaults]
  rw [pyReplace_of_not_occursIn _ _ _ hB, pyReplace_of_not_occursIn _ _ _ hD,
    pyReplace_of_not_occursIn _ _ _ hT, pyReplace_of_not_occursIn _ _ _ hS,
    pyReplace_of_not_occursIn _ _ _ hN]

/-! ## Concrete fixtures used by examples and witnesses -/

def janeName : List Char := "Jane Doe".data

def janeEmail : List Char := "jane@example.com".data

def janeAddress : List Char := "12 Oak St".data

/-- A property row whose primary-contact name is "Jane Doe". -/
def janeRow : Row :=
  { id := 1
    address := janeAddress
    unit_number := none
    hoa_fees_monthly := some 150
    primary_contact := some janeName
    email := some janeEmail }

def janeTemplate : List Char :=
  "Hi \x7b\x7bresident_name\x7d\x7d, balance \x7b\x7bcurrent_balance\x7d\x7d".data

def janeOutput : List Char := "Hi Jane Doe, balance 0.00".data

/-- A template where removing an inner `\x7b\x7bstatus\x7d\x7d` splices the
surrounding text into a fresh `\x7b\x7bstatus\x7d\x7d`. -/
def spliceTemplate : List Char :=
  "\x7b\x7bstat\x7b\x7bstatus\x7d\x7dus\x7d\x7d".data

def nameFoo : List Char := "foo".data

def fooTemplate : List Char :=
  "Hi \x7b\x7bfoo\x7d\x7d, balance \x7b\x7bcurrent_balance\x7d\x7d".data

def resolvedText : List Char :=
  "Dear Resident, your statement is attached.".data

def balWitnessVal : List Char := "42.17".data

def dueWitnessVal : List Char := "July 1".data

/-! ## Claim C7 -/

/-- C7: for every template string and every combination of contexts, a
placeholder token whose brace-free name is not in the fixed vocabulary
still occurs verbatim in the rendered output. -/
theorem unknown_placeholders_left_verbatim (name : List Char)
    (hbf : braceFree name = true) (hvocab : name ∉ vocabNames)
    (t : List Char) (hocc : occursIn (mkTok name) t = true)
    (p : Option Row) (m : Option MaintData) (f : Option FinData) :
    occursIn (mkTok name) (parse_email_template t p m f) = true := by
  cases hte : t.isEmpty with
  | true => simpa [parse_email_template, hte] using hocc
  | false =>
    simp only [parse_email_template, hte, Bool.false_eq_true, if_false]
    apply applyDefaults_keeps_token name hbf hvocab
    cases m with
    | none =>
      cases f with
      | none =>
        cases p with
        | none => exact hocc
        | some row => exact applyProperty_keeps_token row name hbf hvocab t hocc
      | some fd =>
        cases p with
        | none => exact applyFinancial_keeps_token fd name hbf hvocab t hocc
        | some row =>
          exact applyFinancial_keeps_token fd name hbf hvocab _
            (applyProperty_keeps_token row name hbf hvocab t hocc)
    | some md =>
      cases f with
      | none =>
        cases p with
        | none => exact applyMaintenance_keeps_token md name hbf hvocab t hocc
        | some row =>
          exact applyMaintenance_keeps_token md name hbf hvocab _
            (applyProperty_keeps_token row name hbf hvocab t hocc)
      | some fd =>
        cases p with
        | none =>
          exact applyMaintenance_keeps_token md name hbf hvocab _
            (applyFinancial_keeps_token fd name hbf hvocab t hocc)
        | some row =>
          exact applyMaintenance_keeps_token md name hbf hvocab _
            (applyFinancial_keeps_token fd name hbf hvocab _
              (applyProperty_keeps_token row name hbf hvocab t hocc))

/-- Witness for C7 at the concrete unknown placeholder `\x7b\x7bfoo\x7d\x7d`. -/
theorem unknown_placeholders_left_verbatim_witness :
    braceFree nameFoo = true ∧ nameFoo ∉ vocabNames ∧
    occursIn (mkTok nameFoo) fooTemplate = true ∧
    occursIn (mkTok nameFoo)
      (parse_email_template fooTemplate (some janeRow) none none) = true :=
  ⟨by decide, by decide, by decide,
    unknown_placeholders_left_verbatim nameFoo (by decide) (by decide)
      fooTemplate (by decide) (some janeRow) none none⟩

/-! ## Claim C6 -/

/-- C6 (amended, first part): rendering a string in which no vocabulary
token occurs returns it unchanged, whatever the contexts. -/
theorem render_identity_on_resolved_text (t : List Char)
    (h : noVocabOccurrence t = true)
    (p : Option Row) (m : Option MaintData) (f : Option FinData) :
    parse_email_template t p m f = t := by
  have hx := fun pat hmem => occursIn_false_of_noVocab t pat hmem h
  have hA := hx patPropertyAddress (by simp [vocabPatterns])
  have hR := hx patResidentName (by simp [vocabPatterns])
  have hM := hx patMonthlyFee (by simp [vocabPatterns])
  have hB := hx patCurrentBalance (by simp [vocabPatterns])
  have hD := hx patDueDate (by simp [vocabPatterns])
  have hT := hx patRequestTitle (by simp [vocabPatterns])
  have hS := hx patStatus (by simp [vocabPatterns])
  have hN := hx patNotes (by simp [vocabPatterns])
  cases hte : t.isEmpty with
  | true => simp [parse_email_template, hte]
  | false =>
    cases p with
    | none =>
      cases f with
      | none =>
        cases m with
        | none =>
          simp only [parse_email_template, hte, Bool.false_eq_true, if_false]
          exact applyDefaults_noop t hB hD hT hS hN
        | some md =>
          simp only [parse_email_template, hte, Bool.false_eq_true, if_false]
          rw [applyMaintenance_noop md t hT hS hN]
          exact applyDefaults_noop t hB hD hT hS hN
      | some fd =>
        cases m with
        | none =>
          simp only [parse_email_template, hte, Bool.false_eq_true, if_false]
          rw [applyFinancial_noop fd t hB hD]
          exact applyDefaults_noop t hB hD hT hS hN
        | some md =>
          simp only [parse_email_template, hte, Bool.false_eq_true, if_false]
          rw [applyFinancial_noop fd t hB hD, applyMaintenance_noop md t hT hS hN]
          exact applyDefaults_noop t hB hD hT hS hN
    | some row =>
      cases f with
      | none =>
        cases m with
        | none =>
          simp only [parse_email_template, hte, Bool.false_eq_true, if_false]
          rw [applyProperty_noop row t hA hR hM]
          exact applyDefaults_noop t hB hD hT hS hN
        | some md =>
          simp only [parse_email_template, hte, Bool.false_eq_true, if_false]
          rw [applyProperty_noop row t hA hR hM, applyMaintenance_noop md t hT hS hN]
          exact applyDefaults_noop t hB hD hT hS hN
      | some fd =>
        cases m with
        | none =>
          simp only [parse_email_template, hte, Bool.false_eq_true, if_false]
          rw [applyProperty_noop row t hA hR hM, applyFinancial_noop fd t hB hD]
          exact applyDefaults_noop t hB hD hT hS hN
        | some md =>
          simp only [parse_email_template, hte, Bool.false_eq_true, if_false]
          rw [applyProperty_noop row t hA hR hM, applyFinancial_noop fd t hB hD,
            applyMaintenance_noop md t hT hS hN]
          exact applyDefaults_noop t hB hD hT hS hN

/-- Witness for C6's amended theorem on a concrete resolved text. -/
theorem render_identity_on_resolved_text_witness :
    noVocabOccurrence resolvedText = true ∧
    parse_email_template resolvedText (some janeRow) none none = resolvedText :=
  ⟨by decide,
    render_identity_on_resolved_text resolvedText (by decide) (some janeRow) none none⟩

/-- Counterexample to C6 as stated: the default pass over
`\x7b\x7bstat\x7b\x7bstatus\x7d\x7dus\x7d\x7d` splices the surrounding text into a fresh
`\x7b\x7bstatus\x7d\x7d`, so rendering twice with no contexts differs from rendering
once. -/
theorem double_render_differs_from_single :
    parse_email_template (parse_email_template spliceTemplate none none none)
        none none none ≠
      parse_email_template spliceTemplate none none none := by decide

/-! ## Claim C2 -/

/-! ## Replacement over segmented templates

To settle the spec quantifier "for every template string", a template is
modelled as an arbitrary interleaving of brace-free literal text and
placeholder tokens.  A replace pass with a vocabulary token rewrites such
a template segment-wise: literal text is copied, tokens equal to the
pattern become the replacement, all other tokens are copied. -/

/-- Extra fuel is irrelevant: one step down. -/
lemma replaceFuel_step_of_le (pat repl : List Char) :
    ∀ (n : Nat) (s : List Char), s.length ≤ n →
      replaceFuel pat repl (n + 1) s = replaceFuel pat repl n s := by
  intro n
  induction n with
  | zero =>
    intro s hs
    have hnil : s = [] := List.length_eq_zero.mp (Nat.le_zero.mp hs)
    subst hnil
    rfl
  | succ n ih =>
    intro s hs
    cases s with
    | nil => rfl
    | cons c rest =>
      by_cases hcond : (pat.isPrefixOf (c :: rest) && !pat.isEmpty) = true
      · have hpne : pat ≠ [] := by
          rcases Bool.and_eq_true_iff.mp hcond with ⟨_, hp⟩
          simpa [List.isEmpty_iff] using hp
        rw [replaceFuel, if_pos hcond, replaceFuel, if_pos hcond]
        have hlen : ((c :: rest).drop pat.length).length ≤ n := by
          have hplen : 1 ≤ pat.length := by
            cases pat with
            | nil => cases hpne rfl
            | cons a q => simp
          simp only [List.length_drop, List.length_cons]
          simp only [List.length_cons] at hs
          omega
        rw [ih _ hlen]
      · have hcf : (pat.isPrefixOf (c :: rest) && !pat.isEmpty) = false :=
          Bool.not_eq_true _ ▸ Bool.of_not_eq_true hcond
        rw [replaceFuel, if_neg (by simp [hcf]), replaceFuel, if_neg (by simp [hcf])]
        have hlen : rest.length ≤ n := by
          simp only [List.length_cons] at hs
          omega
        rw [ih _ hlen]

/-- Any fuel at least the string length computes the canonical replace. -/
lemma replaceFuel_of_le (pat repl : List Char) :
    ∀ (n : Nat) (s : List Char), s.length ≤ n →
      replaceFuel pat repl n s = replaceFuel pat repl s.length s := by
  intro n
  induction n with
  | zero =>
    intro s hs
    have hnil : s = [] := List.length_eq_zero.mp (Nat.le_zero.mp hs)
    subst hnil
    rfl
  | succ n ih =>
    intro s hs
    rcases Nat.lt_or_ge s.length (n + 1) with hlt | hge
    · have hle : s.length ≤ n := Nat.lt_succ_iff.mp hlt
      rw [replaceFuel_step_of_le pat repl n s hle, ih s hle]
    · have heq : s.length = n + 1 := Nat.le_antisymm hs hge
      rw [heq]

/-- Inside brace-free literal text no position can start a token. -/
lemma no_lb_start_in_lit (z tail : List Char) :
    ∀ (w : List Char), braceFree w = true → ∀ k, k < w.length →
      ¬ ((lb :: z) <+: ((w ++ tail).drop k)) := by
  intro w
  induction w with
  | nil =>
    intro _ k hk
    simp at hk
  | cons a w' ih =>
    intro hbf k hk h
    rw [braceFree, List.all_cons, Bool.and_eq_true] at hbf
    cases k with
    | zero =>
      have hane : ¬ (a = lb) := by
        have hb := hbf.1
        simp only [Bool.and_eq_true, Bool.not_eq_true', beq_eq_false_iff_ne, ne_eq] at hb
        exact hb.1
      have hhead := ((List.cons_prefix_cons).mp (by simpa using h)).1
      exact hane hhead.symm
    | succ k =>
      exact ih hbf.2 k (by simp at hk; omega) (by simpa using h)

/-- A scan that cannot match within the first `w.length` positions copies
`w` and continues, consuming exactly `w.length` fuel. -/
lemma replaceFuel_skip_front (pat repl : List Char) :
    ∀ (w rest : List Char) (n : Nat),
      (∀ k, k < w.length → ¬ pat <+: ((w ++ rest).drop k)) →
      replaceFuel pat repl (w.length + n) (w ++ rest) =
        w ++ replaceFuel pat repl n rest := by
  intro w
  induction w with
  | nil =>
    intro rest n _
    simp
  | cons a w' ih =>
    intro rest n h
    have hfe : (a :: w').length + n = (w'.length + n) + 1 := by
      simp only [List.length_cons]
      omega
    rw [hfe]
    have hpf : pat.isPrefixOf (a :: (w' ++ rest)) = false := by
      cases hx : pat.isPrefixOf (a :: (w' ++ rest))
      · rfl
      · exact absurd ((isPre_iff _ _).mp hx) (by simpa using h 0 (by simp))
    rw [List.cons_append, replaceFuel, if_neg (by simp [hpf])]
    rw [ih rest n (fun k hk => by simpa using h (k + 1) (by simp; omega))]
    rfl

/-- A scan whose string starts with the (non-empty) pattern replaces it
and continues after it. -/
lemma replaceFuel_head_match (pat repl rest : List Char) (hne : pat ≠ []) :
    replaceFuel pat repl (pat.length + rest.length) (pat ++ rest) =
      repl ++ replaceFuel pat repl rest.length rest := by
  cases pat with
  | nil => cases hne rfl
  | cons c cs =>
    have hfe : (c :: cs).length + rest.length = (cs.length + rest.length) + 1 := by
      simp only [List.length_cons]
      omega
    rw [hfe, List.cons_append, replaceFuel]
    have hcond : ((c :: cs).isPrefixOf (c :: (cs ++ rest)) && !(c :: cs).isEmpty) = true := by
      rw [Bool.and_eq_true]
      refine ⟨(isPre_iff _ _).mpr ?_, by simp⟩
      exact List.prefix_append (c :: cs) rest
    rw [if_pos hcond]
    have hdrop : (c :: (cs ++ rest)).drop (c :: cs).length = rest := by
      have hsh : c :: (cs ++ rest) = (c :: cs) ++ rest := rfl
      rw [hsh, List.drop_left]
    rw [hdrop]
    rw [replaceFuel_of_le (c :: cs) repl (cs.length + rest.length) rest (by omega)]

/-- A template segment: a stretch of literal text or one placeholder
token. -/
inductive Seg where
  | lit (w : List Char)
  | tok (name : List Char)
deriving DecidableEq, Repr

/-- The characters contributed by one segment. -/
def segString : Seg → List Char
  | Seg.lit w => w
  | Seg.tok n => mkTok n

/-- The template string denoted by a list of segments. -/
def segsString (l : List Seg) : List Char :=
  (l.map segString).flatten

/-- Wellformedness of a segment: literal text contains no brace, and a
placeholder name contains no brace. -/
def SegWF : Seg → Bool
  | Seg.lit w => braceFree w
  | Seg.tok n => braceFree n

/-- The effect of one replace pass on one segment: the token named `p`
becomes the replacement text, everything else is untouched. -/
def substTok (p repl : List Char) : Seg → Seg
  | Seg.lit w => Seg.lit w
  | Seg.tok n => if n = p then Seg.lit repl else Seg.tok n

lemma segsString_nil : segsString [] = [] := rfl

lemma segsString_cons (seg : Seg) (l : List Seg) :
    segsString (seg :: l) = segString seg ++ segsString l := by
  simp [segsString]

/-- A well-formed segment stays well-formed under a replace pass whose
replacement text is brace-free. -/
lemma segWF_substTok (p repl : List Char) (hrepl : braceFree repl = true)
    (seg : Seg) (h : SegWF seg = true) : SegWF (substTok p repl seg) = true := by
  cases seg with
  | lit w => exact h
  | tok n =>
    by_cases hnp : n = p <;> simp [substTok, hnp, SegWF, hrepl]
    exact h

lemma wf_map_substTok (p repl : List Char) (hrepl : braceFree repl = true)
    (l : List Seg) (hwf : ∀ seg ∈ l, SegWF seg = true) :
    ∀ seg ∈ l.map (substTok p repl), SegWF seg = true := by
  intro seg hseg
  obtain ⟨s0, hs0, rfl⟩ := List.mem_map.mp hseg
  exact segWF_substTok p repl hrepl s0 (hwf s0 hs0)

/-- The pattern token of `p` can match nowhere in the span of a different
token. -/
lemma no_match_in_other_tok (p n : List Char) (hp : braceFree p = true)
    (hn : braceFree n = true) (hne : n ≠ p) (tail : List Char) :
    ∀ k, k < (mkTok n).length → ¬ mkTok p <+: ((mkTok n ++ tail).drop k) := by
  intro k hk h
  cases k with
  | zero =>
    rw [List.drop_zero] at h
    exact (brace_no_overlap n p hn hp (fun he => hne he.symm)).1 0
      (mkTok n ++ tail) (by simp [mkTok]) (List.prefix_append _ tail)
      (by simpa using h)
  | succ k =>
    exact (brace_no_overlap p n hp hn hne).2 (k + 1) (mkTok n ++ tail)
      (Nat.succ_pos k) hk (List.prefix_append _ tail) h

/-- One replace pass with a vocabulary token rewrites a segmented
template segment-wise. -/
lemma pyReplace_segs (p repl : List Char) (hp : braceFree p = true) :
    ∀ (l : List Seg), (∀ seg ∈ l, SegWF seg = true) →
      pyReplace (segsString l) (mkTok p) repl =
        segsString (l.map (substTok p repl)) := by
  intro l
  induction l with
  | nil => intro _; rfl
  | cons seg l' ih =>
    intro hwf
    have hwseg : SegWF seg = true := hwf seg (by simp)
    have hrest := ih (fun s hs => hwf s (by simp [hs]))
    rw [pyReplace] at hrest ⊢
    cases seg with
    | lit w =>
      have hbf : braceFree w = true := hwseg
      rw [segsString_cons]
      have hlen : (segString (Seg.lit w) ++ segsString l').length =
          w.length + (segsString l').length := by simp [segString]
      rw [hlen]
      have hskip := replaceFuel_skip_front (mkTok p) repl w (segsString l')
        (segsString l').length
        (fun k hk => by
          simpa [mkTok] using
            no_lb_start_in_lit (lb :: (p ++ [rb, rb])) (segsString l') w hbf k hk)
      rw [show segString (Seg.lit w) = w from rfl, hskip, hrest]
      simp [segsString_cons, substTok, segString]
    | tok n =>
      have hbf : braceFree n = true := hwseg
      by_cases hnp : n = p
      · subst hnp
        rw [segsString_cons]
        have hlen : (segString (Seg.tok n) ++ segsString l').length =
            (mkTok n).length + (segsString l').length := by simp [segString]
        rw [hlen, show segString (Seg.tok n) = mkTok n from rfl]
        rw [replaceFuel_head_match (mkTok n) repl (segsString l') (by simp [mkTok])]
        rw [hrest]
        simp [segsString_cons, substTok, segString]
      · rw [segsString_cons]
        have hlen : (segString (Seg.tok n) ++ segsString l').length =
            (mkTok n).length + (segsString l').length := by simp [segString]
        rw [hlen, show segString (Seg.tok n) = mkTok n from rfl]
        rw [replaceFuel_skip_front (mkTok p) repl (mkTok n) (segsString l')
          (segsString l').length (no_match_in_other_tok p n hp hbf hnp (segsString l'))]
        rw [hrest]
        simp [segsString_cons, substTok, segString, hnp]

/-- The combined effect on one segment of the default pass with no
contexts: each defaultable token becomes its fixed default, everything
else is untouched. -/
def defaultSeg : Seg → Seg
  | Seg.lit w => Seg.lit w
  | Seg.tok n =>
    if n = nameCurrentBalance then Seg.lit zeroZeroChars
    else if n = nameDueDate then Seg.lit endOfMonthChars
    else if n = nameRequestTitle then Seg.lit []
    else if n = nameStatus then Seg.lit []
    else if n = nameNotes then Seg.lit []
    else Seg.tok n

/-- The combined effect on one segment of a financial context carrying a
balance value `b` followed by the default pass: the balance token gets
the context value `b` (not the default), the due-date token gets the
dict-level fallback "TBD", and the remaining defaultables their fixed
defaults. -/
def finDefaultSeg (b : List Char) : Seg → Seg
  | Seg.lit w => Seg.lit w
  | Seg.tok n =>
    if n = nameCurrentBalance then Seg.lit b
    else if n = nameDueDate then Seg.lit tbdChars
    else if n = nameRequestTitle then Seg.lit []
    else if n = nameStatus then Seg.lit []
    else if n = nameNotes then Seg.lit []
    else Seg.tok n

/-- The combined effect on one segment of a full maintenance context
followed by the default pass: title, status and notes tokens get the
context values, balance and due date their fixed defaults. -/
def maintDefaultSeg (t s nv : List Char) : Seg → Seg
  | Seg.lit w => Seg.lit w
  | Seg.tok n =>
    if n = nameCurrentBalance then Seg.lit zeroZeroChars
    else if n = nameDueDate then Seg.lit endOfMonthChars
    else if n = nameRequestTitle then Seg.lit t
    else if n = nameStatus then Seg.lit s
    else if n = nameNotes then Seg.lit nv
    else Seg.tok n

lemma defaultSeg_chain (seg : Seg) :
    substTok nameNotes [] (substTok nameStatus [] (substTok nameRequestTitle []
      (substTok nameDueDate endOfMonthChars
        (substTok nameCurrentBalance zeroZeroChars seg)))) = defaultSeg seg := by
  cases seg with
  | lit w => rfl
  | tok n =>
    by_cases h1 : n = nameCurrentBalance
    · subst h1; decide
    · by_cases h2 : n = nameDueDate
      · subst h2; decide
      · by_cases h3 : n = nameRequestTitle
        · subst h3; decide
        · by_cases h4 : n = nameStatus
          · subst h4; decide
          · by_cases h5 : n = nameNotes
            · subst h5; decide
            · simp [substTok, defaultSeg, h1, h2, h3, h4, h5]

lemma finDefaultSeg_chain (b : List Char) (seg : Seg) :
    defaultSeg (substTok nameDueDate tbdChars
      (substTok nameCurrentBalance b seg)) = finDefaultSeg b seg := by
  have hdc : nameDueDate ≠ nameCurrentBalance := by decide
  cases seg with
  | lit w => rfl
  | tok n =>
    by_cases h1 : n = nameCurrentBalance
    · subst h1; simp [substTok, defaultSeg, finDefaultSeg]
    · by_cases h2 : n = nameDueDate
      · subst h2; simp [substTok, defaultSeg, finDefaultSeg, hdc]
      · simp [substTok, defaultSeg, finDefaultSeg, h1, h2]

lemma maintDefaultSeg_chain (t s nv : List Char) (seg : Seg) :
    defaultSeg (substTok nameNotes nv (substTok nameStatus s
      (substTok nameRequestTitle t seg))) = maintDefaultSeg t s nv seg := by
  have ha : nameRequestTitle ≠ nameCurrentBalance := by decide
  have hb2 : nameRequestTitle ≠ nameDueDate := by decide
  have hc : nameStatus ≠ nameCurrentBalance := by decide
  have hd2 : nameStatus ≠ nameDueDate := by decide
  have he : nameStatus ≠ nameRequestTitle := by decide
  have hf2 : nameNotes ≠ nameCurrentBalance := by decide
  have hg : nameNotes ≠ nameDueDate := by decide
  have hh : nameNotes ≠ nameRequestTitle := by decide
  have hi : nameNotes ≠ nameStatus := by decide
  cases seg with
  | lit w => rfl
  | tok n =>
    by_cases h3 : n = nameRequestTitle
    · subst h3; simp [substTok, defaultSeg, maintDefaultSeg, ha, hb2]
    · by_cases h4 : n = nameStatus
      · subst h4; simp [substTok, defaultSeg, maintDefaultSeg, hc, hd2, he]
      · by_cases h5 : n = nameNotes
        · subst h5; simp [substTok, defaultSeg, maintDefaultSeg, hf2, hg, hh, hi]
        · simp [substTok, defaultSeg, maintDefaultSeg, h3, h4, h5]

/-- The default pass over a segmented template acts segment-wise. -/
lemma applyDefaults_segs (l : List Seg) (hwf : ∀ seg ∈ l, SegWF seg = true) :
    applyDefaults (segsString l) = segsString (l.map defaultSeg) := by
  simp only [applyDefaults]
  rw [patCurrentBalance_eq, patDueDate_eq, patRequestTitle_eq, patStatus_eq,
    patNotes_eq]
  have w1 := wf_map_substTok nameCurrentBalance zeroZeroChars (by decide) l hwf
  have w2 := wf_map_substTok nameDueDate endOfMonthChars (by decide) _ w1
  have w3 := wf_map_substTok nameRequestTitle [] (by decide) _ w2
  have w4 := wf_map_substTok nameStatus [] (by decide) _ w3
  rw [pyReplace_segs nameCurrentBalance zeroZeroChars (by decide) l hwf,
    pyReplace_segs nameDueDate endOfMonthChars (by decide) _ w1,
    pyReplace_segs nameRequestTitle [] (by decide) _ w2,
    pyReplace_segs nameStatus [] (by decide) _ w3,
    pyReplace_segs nameNotes [] (by decide) _ w4]
  simp only [List.map_map]
  refine congrArg segsString (List.map_congr_left fun seg _ => ?_)
  simpa [Function.comp] using defaultSeg_chain seg

/-- A financial context with a balance value, then the default pass, act
segment-wise on a segmented template. -/
lemma applyFinancial_defaults_segs (b : List Char) (hbb : braceFree b = true)
    (l : List Seg) (hwf : ∀ seg ∈ l, SegWF seg = true) :
    applyDefaults (applyFinancial (FinData.mk (some b) none) (segsString l)) =
      segsString (l.map (finDefaultSeg b)) := by
  simp only [applyFinancial, Option.getD_some, Option.getD_none]
  rw [patCurrentBalance_eq, patDueDate_eq]
  have w1 := wf_map_substTok nameCurrentBalance b hbb l hwf
  have w2 := wf_map_substTok nameDueDate tbdChars (by decide) _ w1
  rw [pyReplace_segs nameCurrentBalance b (by decide) l hwf,
    pyReplace_segs nameDueDate tbdChars (by decide) _ w1,
    applyDefaults_segs _ w2]
  simp only [List.map_map]
  refine congrArg segsString (List.map_congr_left fun seg _ => ?_)
  simpa [Function.comp] using finDefaultSeg_chain b seg

/-- A full maintenance context, then the default pass, act segment-wise
on a segmented template. -/
lemma applyMaintenance_defaults_segs (t s nv : List Char)
    (ht : braceFree t = true) (hs : braceFree s = true)
    (hnv : braceFree nv = true)
    (l : List Seg) (hwf : ∀ seg ∈ l, SegWF seg = true) :
    applyDefaults (applyMaintenance (MaintData.mk (some t) (some s) (some nv))
      (segsString l)) = segsString (l.map (maintDefaultSeg t s nv)) := by
  simp only [applyMaintenance, Option.getD_some]
  rw [patRequestTitle_eq, patStatus_eq, patNotes_eq]
  have w1 := wf_map_substTok nameRequestTitle t ht l hwf
  have w2 := wf_map_substTok nameStatus s hs _ w1
  have w3 := wf_map_substTok nameNotes nv hnv _ w2
  rw [pyReplace_segs nameRequestTitle t (by decide) l hwf,
    pyReplace_segs nameStatus s (by decide) _ w1,
    pyReplace_segs nameNotes nv (by decide) _ w2,
    applyDefaults_segs _ w3]
  simp only [List.map_map]
  refine congrArg segsString (List.map_congr_left fun seg _ => ?_)
  simpa [Function.comp] using maintDefaultSeg_chain t s nv seg

/-- A lit-preserving segment map keeps an empty template empty. -/
lemma segsString_map_of_empty (f : Seg → Seg)
    (hf : ∀ w, f (Seg.lit w) = Seg.lit w)
    (l : List Seg) (h : segsString l = []) : segsString (l.map f) = [] := by
  induction l with
  | nil => rfl
  | cons seg l' ih =>
    rw [segsString_cons] at h
    obtain ⟨h1, h2⟩ := List.append_eq_nil.mp h
    rw [List.map_cons, segsString_cons, ih h2]
    cases seg with
    | lit w =>
      have hw : w = [] := h1
      subst hw
      rw [hf []]
      rfl
    | tok n =>
      exfalso
      simp [segString, mkTok] at h1

/-- Unfolding of the renderer for a non-empty template with no
contexts. -/
lemma parse_no_contexts (tp : List Char) (hte : tp.isEmpty = false) :
    parse_email_template tp none none none = applyDefaults tp := by
  simp only [parse_email_template, hte, Bool.false_eq_true, if_false]

/-- Unfolding of the renderer for a non-empty template with only a
maintenance context. -/
lemma parse_maint_only (tp : List Char) (hte : tp.isEmpty = false)
    (m : MaintData) :
    parse_email_template tp none (some m) none =
      applyDefaults (applyMaintenance m tp) := by
  simp only [parse_email_template, hte, Bool.false_eq_true, if_false]

/-- Unfolding of the renderer for a non-empty template with only a
financial context. -/
lemma parse_fin_only (t : List Char) (hte : t.isEmpty = false) (fd : FinData) :
    parse_email_template t none none (some fd) =
      applyDefaults (applyFinancial fd t) := by
  simp only [parse_email_template, hte, Bool.false_eq_true, if_false]

/-- C2: for every template — modelled as an arbitrary interleaving of
brace-free literal text and placeholder tokens — rendering with no
contexts replaces every defaultable placeholder, wherever it occurs, by
exactly its fixed default ("0.00", "End of Month", and empty strings)
and changes nothing else; with a financial context carrying a balance
value, every balance placeholder in the template receives the context
value instead of the default (context priority), and with a full
maintenance context the title, status and notes placeholders receive the
context values while balance and due date still get their defaults.  In
particular each bare defaultable placeholder with no context renders to
exactly its default, and context-supplied balance and due-date values
survive to the output unchanged. -/
theorem template_defaults_and_context_priority (l : List Seg)
    (hwf : ∀ seg ∈ l, SegWF seg = true)
    (bgen tgen sgen ngen : List Char)
    (hbgen : braceFree bgen = true) (htgen : braceFree tgen = true)
    (hsgen : braceFree sgen = true) (hngen : braceFree ngen = true)
    (b d : List Char)
    (hb : noDefaultableOccurrence b = true)
    (hd : noDefaultableOccurrence d = true) :
    parse_email_template (segsString l) none none none =
      segsString (l.map defaultSeg) ∧
    parse_email_template (segsString l) none none
      (some (FinData.mk (some bgen) none)) =
      segsString (l.map (finDefaultSeg bgen)) ∧
    parse_email_template (segsString l) none
      (some (MaintData.mk (some tgen) (some sgen) (some ngen))) none =
      segsString (l.map (maintDefaultSeg tgen sgen ngen)) ∧
    parse_email_template patCurrentBalance none none none = zeroZeroChars ∧
    parse_email_template patDueDate none none none = endOfMonthChars ∧
    parse_email_template patRequestTitle none none none = [] ∧
    parse_email_template patStatus none none none = [] ∧
    parse_email_template patNotes none none none = [] ∧
    parse_email_template patCurrentBalance none none
      (some (FinData.mk (some b) none)) = b ∧
    parse_email_template patDueDate none none
      (some (FinData.mk none (some d))) = d := by
  have hb5 := fun pat hmem => occursIn_false_of_noDefaultable b pat hmem hb
  have hd5 := fun pat hmem => occursIn_false_of_noDefaultable d pat hmem hd
  refine ⟨?_, ?_, ?_, by decide, by decide, by decide, by decide, by decide,
    ?_, ?_⟩
  · cases hte : (segsString l).isEmpty with
    | true =>
      have hnil : segsString l = [] := List.isEmpty_iff.mp hte
      simp only [parse_email_template, hte, if_true]
      rw [segsString_map_of_empty defaultSeg (fun w => rfl) l hnil, hnil]
    | false =>
      rw [parse_no_contexts _ hte, applyDefaults_segs l hwf]
  · cases hte : (segsString l).isEmpty with
    | true =>
      have hnil : segsString l = [] := List.isEmpty_iff.mp hte
      simp only [parse_email_template, hte, if_true]
      rw [segsString_map_of_empty (finDefaultSeg bgen) (fun w => rfl) l hnil, hnil]
    | false =>
      rw [parse_fin_only _ hte, applyFinancial_defaults_segs bgen hbgen l hwf]
  · cases hte : (segsString l).isEmpty with
    | true =>
      have hnil : segsString l = [] := List.isEmpty_iff.mp hte
      simp only [parse_email_template, hte, if_true]
      rw [segsString_map_of_empty (maintDefaultSeg tgen sgen ngen)
        (fun w => rfl) l hnil, hnil]
    | false =>
      rw [parse_maint_only _ hte,
        applyMaintenance_defaults_segs tgen sgen ngen htgen hsgen hngen l hwf]
  · rw [parse_fin_only patCurrentBalance (by decide) (FinData.mk (some b) none)]
    simp only [applyFinancial, Option.getD_some, Option.getD_none]
    rw [pyReplace_self patCurrentBalance b (by decide)]
    rw [pyReplace_of_not_occursIn b patDueDate tbdChars
      (hb5 patDueDate (by simp [defaultablePatterns]))]
    exact applyDefaults_noop b
      (hb5 patCurrentBalance (by simp [defaultablePatterns]))
      (hb5 patDueDate (by simp [defaultablePatterns]))
      (hb5 patRequestTitle (by simp [defaultablePatterns]))
      (hb5 patStatus (by simp [defaultablePatterns]))
      (hb5 patNotes (by simp [defaultablePatterns]))
  · rw [parse_fin_only patDueDate (by decide) (FinData.mk none (some d))]
    simp only [applyFinancial, Option.getD_some, Option.getD_none]
    rw [pyReplace_of_not_occursIn patDueDate patCurrentBalance zeroChars (by decide)]
    rw [pyReplace_self patDueDate d (by decide)]
    exact applyDefaults_noop d
      (hd5 patCurrentBalance (by simp [defaultablePatterns]))
      (hd5 patDueDate (by simp [defaultablePatterns]))
      (hd5 patRequestTitle (by simp [defaultablePatterns]))
      (hd5 patStatus (by simp [defaultablePatterns]))
      (hd5 patNotes (by simp [defaultablePatterns]))

def greetChars : List Char := "Dear ".data

def balLabelChars : List Char := ", your balance of ".data

def dueLabelChars : List Char := " is due ".data

def titleWitnessVal : List Char := "Roof repair".data

def statusWitnessVal : List Char := "In Progress".data

def notesWitnessVal : List Char := "ladder needed".data

/-- A concrete mixed template: literal text, a non-defaultable vocabulary
token, two defaultable tokens and an unknown token. -/
def demoTemplateSegs : List Seg :=
  [Seg.lit greetChars, Seg.tok nameResidentName, Seg.lit balLabelChars,
   Seg.tok nameCurrentBalance, Seg.lit dueLabelChars, Seg.tok nameDueDate,
   Seg.tok nameFoo]

/-- Witness for C2 on the concrete mixed template and concrete context
values. -/
theorem template_defaults_and_context_priority_witness :
    (∀ seg ∈ demoTemplateSegs, SegWF seg = true) ∧
    parse_email_template (segsString demoTemplateSegs) none none none =
      segsString (demoTemplateSegs.map defaultSeg) ∧
    parse_email_template (segsString demoTemplateSegs) none none
      (some (FinData.mk (some balWitnessVal) none)) =
      segsString (demoTemplateSegs.map (finDefaultSeg balWitnessVal)) ∧
    parse_email_template patCurrentBalance none none
      (some (FinData.mk (some balWitnessVal) none)) = balWitnessVal ∧
    parse_email_template patDueDate none none
      (some (FinData.mk none (some dueWitnessVal))) = dueWitnessVal :=
  have h := template_defaults_and_context_priority demoTemplateSegs (by decide)
    balWitnessVal titleWitnessVal statusWitnessVal notesWitnessVal
    (by decide) (by decide) (by decide) (by decide)
    balWitnessVal dueWitnessVal (by decide) (by decide)
  ⟨by decide, h.1, h.2.1, h.2.2.2.2.2.2.2.2.1, h.2.2.2.2.2.2.2.2.2⟩

/-! ## Claim C9 -/

/-- C9: rendering the statement template with a property context whose
primary-contact name is "Jane Doe" and no financial context yields
exactly "Hi Jane Doe, balance 0.00". -/
theorem render_example_jane_doe :
    parse_email_template janeTemplate (some janeRow) none none = janeOutput := by
  decide

/-! ## Claim C8 -/

/-- C8: the renderer is a pure function of its four arguments: equal
template text and equal contexts give equal output (it is a total Lean
function, so it has no side effects). -/
theorem render_deterministic (t1 t2 : List Char) (p1 p2 : Option Row)
    (m1 m2 : Option MaintData) (f1 f2 : Option FinData)
    (ht : t1 = t2) (hp : p1 = p2) (hm : m1 = m2) (hf : f1 = f2) :
    parse_email_template t1 p1 m1 f1 = parse_email_template t2 p2 m2 f2 := by
  rw [ht, hp, hm, hf]

/-- Witness for C8 at a concrete invocation. -/
theorem render_deterministic_witness :
    parse_email_template janeTemplate (some janeRow) none none =
      parse_email_template janeTemplate (some janeRow) none none :=
  render_deterministic janeTemplate janeTemplate (some janeRow) (some janeRow)
    none none none none rfl rfl rfl rfl

/-! ## Dispatch lemmas and fixtures -/

/-- A matched row with a usable email and a successful send counts as
sent. -/
lemma processRecipient_sent (send : SendFn) (rows : List Row)
    (subject body disp : List Char) (row : Row) (e : List Char)
    (hfind : findMatchingRow rows disp = some row)
    (hemail : row.email = some e)
    (hgood : (!e.isEmpty && !(pystrip e).isEmpty) = true)
    (hsend : send e (parse_email_template subject (some row) none none)
      (parse_email_template body (some row) none none) = true) :
    processRecipient send rows subject body disp = Event.sentOk e := by
  simp only [processRecipient, hfind, hemail]
  rw [if_pos hgood, if_pos hsend]

/-- A matched row with a usable email and a failing send counts as
failed. -/
lemma processRecipient_sendFailed (send : SendFn) (rows : List Row)
    (subject body disp : List Char) (row : Row) (e : List Char)
    (hfind : findMatchingRow rows disp = some row)
    (hemail : row.email = some e)
    (hgood : (!e.isEmpty && !(pystrip e).isEmpty) = true)
    (hsend : send e (parse_email_template subject (some row) none none)
      (parse_email_template body (some row) none none) = false) :
    processRecipient send rows subject body disp = Event.sendFailed e := by
  simp only [processRecipient, hfind, hemail]
  rw [if_pos hgood, if_neg (by simp [hsend])]

/-- A matched row with a NULL email is recorded as a failure without a
send attempt. -/
lemma processRecipient_noEmail (send : SendFn) (rows : List Row)
    (subject body disp : List Char) (row : Row)
    (hfind : findMatchingRow rows disp = some row)
    (hemail : row.email = none) :
    processRecipient send rows subject body disp = Event.noEmail := by
  simp only [processRecipient, hfind, hemail]

/-- A label matching no row produces no event at all. -/
lemma processRecipient_noMatch (send : SendFn) (rows : List Row)
    (subject body disp : List Char)
    (hfind : findMatchingRow rows disp = none) :
    processRecipient send rows subject body disp = Event.noMatch := by
  simp only [processRecipient, hfind]

def annName : List Char := "Ann A".data

def bethName : List Char := "Beth B".data

def calName : List Char := "Cal C".data

def annAddress : List Char := "1 Alder Ct".data

def bethAddress : List Char := "2 Birch Ct".data

def calAddress : List Char := "3 Cedar Ct".data

def annEmail : List Char := "ann@example.com".data

def calEmail : List Char := "cal@example.com".data

def demoRow1 : Row :=
  { id := 1
    address := annAddress
    unit_number := none
    hoa_fees_monthly := some 100
    primary_contact := some annName
    email := some annEmail }

def demoRow2 : Row :=
  { id := 2
    address := bethAddress
    unit_number := none
    hoa_fees_monthly := some 100
    primary_contact := some bethName
    email := none }

def demoRow3 : Row :=
  { id := 3
    address := calAddress
    unit_number := none
    hoa_fees_monthly := some 100
    primary_contact := some calName
    email := some calEmail }

def demoRows : List Row := [demoRow1, demoRow2, demoRow3]

def demoSelected : List (List Char) := [annAddress, bethAddress, calAddress]

def demoSubject : List Char := "Monthly HOA Statement".data

def demoBody : List Char := "Dear Resident, please find your statement.".data

def missingLabel : List Char := "9 Zinnia Way".data

/-! ## Claim C1 -/

/-- C1: recipients are processed in selection order and failures never
abort the batch (dispatch distributes over appending selections), and on
the concrete 3-recipient run where recipient 2 has no email on file and
the other sends succeed, the events are sent, no-email, sent in order, so
sent = 2 and failed = 1 while recipient 3 was still attempted. -/
theorem batch_dispatch_continue_on_error (send : SendFn)
    (h1 : send annEmail demoSubject demoBody = true)
    (h3 : send calEmail demoSubject demoBody = true) :
    (∀ (rows : List Row) (subject body : List Char) (sel1 sel2 : List (List Char)),
      dispatchEmails send rows subject body (sel1 ++ sel2) =
        dispatchEmails send rows subject body sel1 ++
          dispatchEmails send rows subject body sel2) ∧
    dispatchEmails send demoRows demoSubject demoBody demoSelected =
      [Event.sentOk annEmail, Event.noEmail, Event.sentOk calEmail] ∧
    sentCount (dispatchEmails send demoRows demoSubject demoBody demoSelected) = 2 ∧
    failedCount (dispatchEmails send demoRows demoSubject demoBody demoSelected) = 1 := by
  have hp1 : processRecipient send demoRows demoSubject demoBody annAddress =
      Event.sentOk annEmail := by
    refine processRecipient_sent send demoRows demoSubject demoBody annAddress
      demoRow1 annEmail (by decide) (by decide) (by decide) ?_
    have e1 : parse_email_template demoSubject (some demoRow1) none none =
        demoSubject := by decide
    have e2 : parse_email_template demoBody (some demoRow1) none none =
        demoBody := by decide
    rw [e1, e2]
    exact h1
  have hp2 : processRecipient send demoRows demoSubject demoBody bethAddress =
      Event.noEmail :=
    processRecipient_noEmail send demoRows demoSubject demoBody bethAddress
      demoRow2 (by decide) (by decide)
  have hp3 : processRecipient send demoRows demoSubject demoBody calAddress =
      Event.sentOk calEmail := by
    refine processRecipient_sent send demoRows demoSubject demoBody calAddress
      demoRow3 calEmail (by decide) (by decide) (by decide) ?_
    have e1 : parse_email_template demoSubject (some demoRow3) none none =
        demoSubject := by decide
    have e2 : parse_email_template demoBody (some demoRow3) none none =
        demoBody := by decide
    rw [e1, e2]
    exact h3
  have hconc : dispatchEmails send demoRows demoSubject demoBody demoSelected =
      [Event.sentOk annEmail, Event.noEmail, Event.sentOk calEmail] := by
    simp only [dispatchEmails, demoSelected, List.map_cons, List.map_nil,
      hp1, hp2, hp3]
  refine ⟨?_, hconc, ?_, ?_⟩
  · intro rows subject body sel1 sel2
    simp [dispatchEmails]
  · rw [hconc]
    decide
  · rw [hconc]
    decide

/-- Witness for C1 with an always-succeeding transport. -/
theorem batch_dispatch_continue_on_error_witness :
    dispatchEmails (fun _ _ _ => true) demoRows demoSubject demoBody demoSelected =
      [Event.sentOk annEmail, Event.noEmail, Event.sentOk calEmail] ∧
    sentCount (dispatchEmails (fun _ _ _ => true) demoRows demoSubject demoBody
      demoSelected) = 2 ∧
    failedCount (dispatchEmails (fun _ _ _ => true) demoRows demoSubject demoBody
      demoSelected) = 1 :=
  have h := batch_dispatch_continue_on_error (fun _ _ _ => true) rfl rfl
  ⟨h.2.1, h.2.2.1, h.2.2.2⟩

/-! ## Claim C5 -/

/-- C5: a selected label that matches no property's display label is
silently skipped: it yields a no-match event, contributes to neither
counter (so sent + failed can be strictly below the number of selected
recipients), and when several rows share a display label only the first
matching row determines the outcome. -/
theorem unmatched_recipient_silently_skipped (send : SendFn) (rows : List Row)
    (subject body disp : List Char)
    (hnm : ∀ r ∈ rows, displayOf r ≠ disp)
    (r1 : Row) (rows2 : List Row) (d1 : List Char) (hd1 : displayOf r1 = d1) :
    processRecipient send rows subject body disp = Event.noMatch ∧
    (∀ sel1 sel2,
      sentCount (dispatchEmails send rows subject body (sel1 ++ disp :: sel2)) =
        sentCount (dispatchEmails send rows subject body (sel1 ++ sel2)) ∧
      failedCount (dispatchEmails send rows subject body (sel1 ++ disp :: sel2)) =
        failedCount (dispatchEmails send rows subject body (sel1 ++ sel2))) ∧
    sentCount (dispatchEmails send rows subject body [disp]) +
      failedCount (dispatchEmails send rows subject body [disp]) = 0 ∧
    processRecipient send (r1 :: rows2) subject body d1 =
      processRecipient send [r1] subject body d1 := by
  have hfind : findMatchingRow rows disp = none := by
    rw [findMatchingRow, List.find?_eq_none]
    intro r hr
    simpa using hnm r hr
  have hpnm : processRecipient send rows subject body disp = Event.noMatch :=
    processRecipient_noMatch send rows subject body disp hfind
  have hf1 : findMatchingRow (r1 :: rows2) d1 = some r1 := by
    rw [findMatchingRow]
    exact List.find?_cons_of_pos _ (by simp [hd1])
  have hf2 : findMatchingRow [r1] d1 = some r1 := by
    rw [findMatchingRow]
    exact List.find?_cons_of_pos _ (by simp [hd1])
  refine ⟨hpnm, ?_, ?_, ?_⟩
  · intro sel1 sel2
    constructor <;>
      simp [dispatchEmails, sentCount, failedCount, List.countP_append,
        List.countP_cons, hpnm]
  · simp [dispatchEmails, sentCount, failedCount, hpnm]
  · simp only [processRecipient, hf1, hf2]

/-- Witness for C5: the label "9 Zinnia Way" matches no demo row. -/
theorem unmatched_recipient_silently_skipped_witness :
    processRecipient (fun _ _ _ => true) demoRows demoSubject demoBody
      missingLabel = Event.noMatch ∧
    sentCount (dispatchEmails (fun _ _ _ => true) demoRows demoSubject demoBody
        [missingLabel]) +
      failedCount (dispatchEmails (fun _ _ _ => true) demoRows demoSubject demoBody
        [missingLabel]) = 0 :=
  have h := unmatched_recipient_silently_skipped (fun _ _ _ => true) demoRows
    demoSubject demoBody missingLabel (by decide) demoRow1 [demoRow2]
    annAddress (by decide)
  ⟨h.1, h.2.2.1⟩

/-! ## Claim C4 -/

def deleteRequestSeven : List Char := "DELETE REQUEST 7".data

def deleteSeven : List Char := "DELETE 7".data

/-- Counterexample to C4 as stated: for maintenance request 7 the gate
rejects the entity-bearing phrase "DELETE REQUEST 7" and fires on the
entity-less phrase "DELETE 7", so the confirmation phrase is not of the
form "DELETE ENTITY id" for every entity. -/
theorem maintenance_delete_phrase_lacks_entity_word :
    maintenanceDeleteRuns 7 deleteRequestSeven true = false ∧
    maintenanceDeleteRuns 7 deleteSeven true = true := by decide

/-- C4 (amended): each delete gate fires exactly when the button is
clicked with the confirmation input equal to the fixed phrase, which is
"DELETE PROPERTY id" for properties and "DELETE TEMPLATE id" for email
templates but the entity-less "DELETE id" for maintenance requests; any
other input leaves the record undeleted. -/
theorem delete_confirmation_gates (pid rid tid : Nat) (confirm : List Char)
    (clicked : Bool) :
    (propertyDeleteRuns pid confirm clicked = true ↔
      clicked = true ∧ confirm = propertyDeletePhrase pid) ∧
    (maintenanceDeleteRuns rid confirm clicked = true ↔
      clicked = true ∧ confirm = maintenanceDeletePhrase rid) ∧
    (templateDeleteRuns tid confirm clicked = true ↔
      clicked = true ∧ confirm = templateDeletePhrase tid) := by
  simp [propertyDeleteRuns, maintenanceDeleteRuns, templateDeleteRuns]

/-! ## Claim C3 -/

def statusOpen : List Char := "Open".data

def statusCompleted : List Char := "Completed".data

def priorityLow : List Char := "Low".data

def irrigationType : List Char := "Irrigation".data

def leakTitle : List Char := "Valve leak".data

/-- An open maintenance request with no completion timestamp. -/
def demoOpenRequest : MaintenanceRequest :=
  { id := 1
    property_id := 1
    request_type := irrigationType
    priority := priorityLow
    title := leakTitle
    description := []
    reported_by := []
    assigned_to := []
    estimated_cost := 0
    actual_cost := 0
    status := statusOpen
    notes := []
    expected_completion := none
    completed_date := none }

/-- C3 fails on the code: the edit-form UPDATE never touches
`completed_date`, so a transition to "Completed" leaves the completion
timestamp exactly as it was — in particular, transitioning the open demo
request to "Completed" leaves it unset. -/
theorem status_update_never_sets_completed_date (r : MaintenanceRequest)
    (np nt nd na : List Char) (ec ac : Int) (ns nn : List Char)
    (nexp : Option Nat) :
    (updateMaintenanceRequest r np nt nd na ec ac ns nn nexp).completed_date =
      r.completed_date ∧
    (updateMaintenanceRequest demoOpenRequest priorityLow leakTitle [] [] 0 0
      statusCompleted [] none).status = statusCompleted ∧
    (updateMaintenanceRequest demoOpenRequest priorityLow leakTitle [] [] 0 0
      statusCompleted [] none).completed_date = none :=
  ⟨rfl, rfl, rfl⟩

/-! ## Claim C10 -/

def boomMsg : List Char := "connection refused".data

/-- C10: a data-store error is caught inside `execute_query`, reported as
a "Database error" message, and turned into a `none` result; on success
with fetch enabled the fetched rows come back; and `get_properties`
returns the empty list when the store errors. -/
theorem db_errors_caught_and_reported (db1 db2 db3 : DB)
    (q1 q2 : List Char) (p1 p2 : Option (List Cell)) (e1 e3 : List Char)
    (res : DBResult) (fetch : Bool)
    (h1 : db1 q1 p1 = Except.error e1)
    (h2 : db2 q2 p2 = Except.ok res)
    (h3 : db3 propertiesQuery none = Except.error e3) :
    execute_query db1 q1 p1 fetch = (none, [dbErrorPrefix ++ e1]) ∧
    execute_query db2 q2 p2 true = (some (QueryOut.rows res.rows), []) ∧
    get_properties db3 = [] := by
  refine ⟨?_, ?_, ?_⟩
  · simp [execute_query, h1]
  · simp [execute_query, h2]
  · simp [get_properties, execute_query, h3]

/-- Witness for C10 with a store that always errors and one that always
succeeds. -/
theorem db_errors_caught_and_reported_witness :
    execute_query (fun _ _ => Except.error boomMsg) propertiesQuery none true =
      (none, [dbErrorPrefix ++ boomMsg]) ∧
    execute_query (fun _ _ => Except.ok (DBResult.mk [] 0)) propertiesQuery none
      true = (some (QueryOut.rows []), []) ∧
    get_properties (fun _ _ => Except.error boomMsg) = [] :=
  have h := db_errors_caught_and_reported (fun _ _ => Except.error boomMsg)
    (fun _ _ => Except.ok (DBResult.mk [] 0)) (fun _ _ => Except.error boomMsg)
    propertiesQuery propertiesQuery none none boomMsg boomMsg (DBResult.mk [] 0)
    true rfl rfl rfl
  ⟨h.1, h.2.1, h.2.2⟩

end HOA
